import Mathlib

set_option maxRecDepth 4000

/-!
Shallow embedding of the cat-shelter record-keeping application (`src/app.py`),
covering the vaccination-status evaluator, the missing-vaccine filter, the
cascade semantics of cat deletion, the age-string computation, and the
create-form handlers, together with theorems settling the specification's
claims about them.
-/

namespace CatRefuge

/-- Calendar dates as year/month/day; the shallow embedding of Python `datetime.date`. -/
structure Date where
  year : Nat
  month : Nat
  day : Nat
deriving DecidableEq

/-- Numeric key realising the lexicographic (year, month, day) order in which Python
compares `date` values; faithful on dates with month ≤ 99 and day ≤ 99, which covers
every date Python's validating constructor can produce. -/
def dateKey (d : Date) : Nat := d.year * 10000 + d.month * 100 + d.day

/-- Gregorian leap-year test, as in Python's `calendar.isleap`. -/
def isLeap (y : Nat) : Bool := (y % 4 == 0 && y % 100 != 0) || y % 400 == 0

/-- Length of a month in the proleptic Gregorian calendar (`calendar.monthrange(y, m)[1]`). -/
def daysInMonth (y m : Nat) : Nat :=
  if m == 2 then (if isLeap y then 29 else 28)
  else if m == 4 || m == 6 || m == 9 || m == 11 then 30
  else 31

/-- Validity of a date: the ranges Python's `date` constructor enforces, minus the upper
year bound 9999, which is tracked separately where it matters. -/
def Date.Valid (d : Date) : Prop :=
  1 ≤ d.year ∧ 1 ≤ d.month ∧ d.month ≤ 12 ∧ 1 ≤ d.day ∧ d.day ≤ daysInMonth d.year d.month

instance (d : Date) : Decidable d.Valid := by
  unfold Date.Valid
  exact inferInstance

/-- Modelled from `dateutil.relativedelta`: adding `n` years keeps month and day, clamping
the day to the length of the target month (so Feb 29 + 1 year lands on Feb 28). -/
def addYears (d : Date) (n : Nat) : Date :=
  ⟨d.year + n, d.month, min d.day (daysInMonth (d.year + n) d.month)⟩

/-- Modelled from `dateutil.relativedelta`: subtracting `n` years, with day clamping. -/
def subYears (d : Date) (n : Nat) : Date :=
  ⟨d.year - n, d.month, min d.day (daysInMonth (d.year - n) d.month)⟩

/-- Month index of a date: months elapsed since month 1 of year 0. -/
def monthIndex (d : Date) : Int := (d.year : Int) * 12 + (d.month : Int) - 1

/-- Date at a given month index, with the day clamped to the month length. -/
def dateOfMonthIndex (idx : Int) (day : Nat) : Date :=
  let y := (idx / 12).toNat
  let m := (idx % 12).toNat + 1
  ⟨y, m, min day (daysInMonth y m)⟩

/-- Modelled from `dateutil.relativedelta`: month addition normalises the month into the
year and clamps the day to the target month's length. -/
def addMonths (d : Date) (n : Int) : Date := dateOfMonthIndex (monthIndex d + n) d.day

/-- Successor day in the calendar; one step of Python `timedelta(days=1)` addition. -/
def nextDay (d : Date) : Date :=
  if d.day < daysInMonth d.year d.month then ⟨d.year, d.month, d.day + 1⟩
  else if d.month < 12 then ⟨d.year, d.month + 1, 1⟩
  else ⟨d.year + 1, 1, 1⟩

/-- Embedding of Python `date + timedelta(days=n)` for `n ≥ 0`. -/
def addDays (d : Date) : Nat → Date
  | 0 => d
  | n + 1 => addDays (nextDay d) n

/-- Modelled from `dateutil.relativedelta(t, b)` for `b ≤ t`: the raw month-index
difference, decremented when `b` plus that many months overshoots `t`. The library's
normalisation loop can fire at most once for calendar dates, so a single conditional
decrement is an exact model. -/
def rdMonths (t b : Date) : Int :=
  let m0 := monthIndex t - monthIndex b
  if dateKey t < dateKey (addMonths b m0) then m0 - 1 else m0

/-- Years and months of the `relativedelta` between two dates, as `Cat.age_str` reads
them: the month count split by 12. -/
def ageParts (t b : Date) : Int × Int :=
  let m := rdMonths t b
  (m / 12, m % 12)

/-- Rendering of an age as in `Cat.age_str`: the "2 ans, 3 mois" pattern, with the
year part pluralised, zero parts omitted, and "0 mois" when both parts are zero. -/
def renderAge (years months : Int) : String :=
  let parts :=
    (if years ≠ 0 then [toString years ++ " an" ++ (if 1 < years then "s" else "")] else []) ++
    (if months ≠ 0 then [toString months ++ " mois"] else [])
  if parts.isEmpty then "0 mois" else String.intercalate ", " parts

/-- Embedding of the `Cat` model: id, name (NOT NULL in the schema), optional birthdate,
status, optional photo filename. -/
structure Cat where
  id : Nat
  name : String
  birthdate : Option Date
  status : String
  photo_filename : Option String
deriving DecidableEq

/-- Embedding of `Cat.age_str`: "Inconnu" without a birthdate, else the rendered
years-and-months of `relativedelta(date.today(), birthdate)`. -/
def Cat.age_str (c : Cat) (today : Date) : String :=
  match c.birthdate with
  | none => "Inconnu"
  | some b => renderAge (ageParts today b).1 (ageParts today b).2

/-- Embedding of the `VaccineRecord` model. -/
structure VaccineRecord where
  id : Nat
  cat_id : Nat
  vaccine_name : String
  date_given : Date
  lot : Option String
  vet_name : Option String
  reaction : Option String
deriving DecidableEq

/-- Embedding of `VaccineRecord.next_due`: `date_given + relativedelta(years=1)` inside
a `try/except` returning `None` on failure. For a stored (hence valid) date the only
failure is overflow past Python's `date.max` year 9999, raised when the target year
exceeds 9999. -/
def VaccineRecord.next_due (r : VaccineRecord) : Option Date :=
  if r.date_given.year + 1 ≤ 9999 then some (addYears r.date_given 1) else none

/-- Embedding of the `Note` model (timestamp omitted: no claim depends on it). -/
structure Note where
  id : Nat
  cat_id : Nat
  author : String
  content : String
  attachment_filename : Option String
deriving DecidableEq

/-- Embedding of the `Employee` model. -/
structure Employee where
  id : Nat
  name : String
  role : Option String
deriving DecidableEq

/-- Embedding of the `VaccineType` catalog entry. -/
structure VaccineType where
  id : Nat
  name : String
deriving DecidableEq

/-- Embedding of the `Appointment` model (time of day omitted: no claim depends on it). -/
structure Appointment where
  id : Nat
  location : Option String
  date : Date
  notes : Option String
deriving DecidableEq

/-- Snapshot of the relational store: one list per table, plus the two many-to-many
association tables `appointment_cats` and `appointment_employees` as (appointment id,
partner id) pairs. -/
structure Store where
  cats : List Cat
  employees : List Employee
  vaccine_types : List VaccineType
  notes : List Note
  vaccine_records : List VaccineRecord
  appointments : List Appointment
  appointment_cats : List (Nat × Nat)
  appointment_employees : List (Nat × Nat)
deriving DecidableEq

/-- Vaccination records of a cat, as the ORM relationship `cat.vaccines` materialises
them: the records whose `cat_id` matches the cat's id. -/
def vaccinesOf (s : Store) (c : Cat) : List VaccineRecord :=
  s.vaccine_records.filter (fun v => v.cat_id == c.id)

/-- Python's `max` with a key: keeps the current best unless the next element's key is
strictly greater, so ties go to the earliest element. -/
def pickLater (best v : VaccineRecord) : VaccineRecord :=
  if dateKey best.date_given < dateKey v.date_given then v else best

/-- Embedding of `latest_for_type`: among the cat's records with exactly the given
vaccine name, the one with the maximal administration date (`max(recs, key=date_given)`),
or `none` when there is no such record. -/
def latest_for_type (vaccines : List VaccineRecord) (vname : String) : Option VaccineRecord :=
  match vaccines.filter (fun v => v.vaccine_name == vname) with
  | [] => none
  | r :: rs => some (rs.foldl pickLater r)

/-- Embedding of `{v.vaccine_name for v in cat.vaccines}`: the distinct vaccine names
appearing among the given records. -/
def existing_types (vaccines : List VaccineRecord) : List String :=
  (vaccines.map (fun v => v.vaccine_name)).dedup

/-- Tuple appended to `overdue` or `due_soon` by `compute_vaccine_alerts`. -/
structure AlertItem where
  cat : Cat
  vaccine : String
  last_date : Date
  next_due : Date
deriving DecidableEq

/-- Alert item a cat contributes for one vaccine name: the latest record's dates, or
`none` when the cat has no record of that name or its next-due computation failed
(both `continue` in the source). -/
def itemFor (s : Store) (c : Cat) (vname : String) : Option AlertItem :=
  match latest_for_type (vaccinesOf s c) vname with
  | none => none
  | some latest =>
    match latest.next_due with
    | none => none
    | some nd => some ⟨c, vname, latest.date_given, nd⟩

/-- All candidate alert items, produced cat by cat over that cat's existing vaccine
types, exactly as the nested loops of `compute_vaccine_alerts` do. -/
def alertItems (s : Store) : List AlertItem :=
  s.cats.flatMap (fun c => (existing_types (vaccinesOf s c)).filterMap (itemFor s c))

/-- Result of `compute_vaccine_alerts`: the `overdue` and `due_soon` lists. -/
structure Alerts where
  overdue : List AlertItem
  due_soon : List AlertItem
deriving DecidableEq

/-- Embedding of `compute_vaccine_alerts(days)`: each item goes to `overdue` when its
next-due date is before today, to `due_soon` when (not overdue and) today ≤ next-due ≤
today + `days`, and to neither otherwise — the `if/elif` of the source. -/
def compute_vaccine_alerts (s : Store) (today : Date) (days : Nat) : Alerts :=
  ⟨(alertItems s).filter (fun it => decide (dateKey it.next_due < dateKey today)),
   (alertItems s).filter (fun it => decide (¬ dateKey it.next_due < dateKey today ∧
      dateKey today ≤ dateKey it.next_due ∧
      dateKey it.next_due ≤ dateKey (addDays today days)))⟩

/-- Membership of a (cat, vaccine) pair in an alert list. -/
def alertMem (l : List AlertItem) (c : Cat) (v : String) : Prop :=
  ∃ it ∈ l, it.cat = c ∧ it.vaccine = v

instance (l : List AlertItem) (c : Cat) (v : String) : Decidable (alertMem l c v) := by
  unfold alertMem
  exact inferInstance

/-- Embedding of the `EXISTS` subquery of `cat_missing_vaccine_q`: a record of the given
name, administered on or after `date.today() - relativedelta(years=1)`, belonging to the
cat. -/
def missing_sub_exists (s : Store) (today : Date) (vaccine_name : String) (c : Cat) : Bool :=
  s.vaccine_records.any (fun r =>
    r.vaccine_name == vaccine_name &&
    decide (dateKey (subYears today 1) ≤ dateKey r.date_given) &&
    r.cat_id == c.id)

/-- Embedding of `cat_missing_vaccine_q`: filters a cat query down to the cats for which
the `EXISTS` subquery is false. -/
def cat_missing_vaccine_q (s : Store) (today : Date) (cats : List Cat)
    (vaccine_name : String) : List Cat :=
  cats.filter (fun c => ! missing_sub_exists s today vaccine_name c)

/-- Embedding of the `delete_cat` handler under the declared ORM semantics: the cat row
goes away; `cascade='all, delete-orphan'` removes its notes and vaccine records; rows of
the secondary table `appointment_cats` referencing it are removed; appointments,
employees, their links, and the vaccine-type catalog are untouched. -/
def delete_cat (s : Store) (cat_id : Nat) : Store :=
  ⟨s.cats.filter (fun c => c.id != cat_id),
   s.employees,
   s.vaccine_types,
   s.notes.filter (fun n => n.cat_id != cat_id),
   s.vaccine_records.filter (fun r => r.cat_id != cat_id),
   s.appointments,
   s.appointment_cats.filter (fun l => l.2 != cat_id),
   s.appointment_employees⟩

/-- Form data of a POST request: key/value pairs; `formGet` is `request.form.get(k)`. -/
def FormData := List (String × String)

/-- Python `request.form.get(key)`: the value when present, else `None`. -/
def formGet (form : FormData) (key : String) : Option String :=
  (form.find? (fun kv => kv.1 == key)).map (fun kv => kv.2)

/-- Python `x or default` on an optional string: `None` and the empty string are falsy. -/
def orDefault (v : Option String) (dflt : String) : String :=
  match v with
  | none => dflt
  | some "" => dflt
  | some s => s

/-- Python `x or None` on an optional string: `None` and the empty string give `None`. -/
def orNone (v : Option String) : Option String :=
  if v = some "" then none else v

/-- Python truthiness of an optional string: `None` and `""` are falsy. -/
def truthy (v : Option String) : Bool :=
  match v with
  | none => false
  | some "" => false
  | some _ => true

/-- Embedding of `datetime.strptime(s, '%Y-%m-%d').date()`: three dash-separated
numbers forming a valid calendar date in years 1..9999, else a `ValueError` (`none`). -/
def parseISODate (s : String) : Option Date :=
  match (s.splitOn "-").map String.toNat? with
  | [some y, some m, some d] =>
    if (Date.mk y m d).Valid ∧ y ≤ 9999 then some ⟨y, m, d⟩ else none
  | _ => none

/-- Outcome of the `new_cat` POST handler. `badRequest` is the framework-level 400 a
`request.form[...]` key-error would produce; this handler never reaches it because it
reads fields with `request.form.get`, which returns `None` instead of raising.
`dbIntegrityError` is the unhandled database error raised at `db.session.commit()` when
the NOT NULL `name` column receives `None`. `parseError` is the unhandled `ValueError`
from `strptime` on a malformed birthdate. -/
inductive NewCatResult where
  | created (c : Cat)
  | dbIntegrityError
  | badRequest
  | parseError
deriving DecidableEq

/-- Embedding of the POST branch of `new_cat` (photo upload omitted: no claim depends on
it): reads `name` with `form.get`, defaults `status` to "normal", parses the birthdate
when present, then commits — which fails with a database integrity error when `name`
is missing, since the column is NOT NULL. -/
def new_cat (form : FormData) (nextId : Nat) : NewCatResult :=
  let nameField := formGet form "name"
  let status := orDefault (formGet form "status") "normal"
  match orNone (formGet form "birthdate") with
  | some s =>
    match parseISODate s with
    | none => NewCatResult.parseError
    | some b =>
      match nameField with
      | none => NewCatResult.dbIntegrityError
      | some n => NewCatResult.created ⟨nextId, n, some b, status, none⟩
  | none =>
    match nameField with
    | none => NewCatResult.dbIntegrityError
    | some n => NewCatResult.created ⟨nextId, n, none, status, none⟩

/-- Outcome of the `add_vaccine` POST handler: a record is saved and the handler
redirects, or the `if vname and d` guard fails and the handler redirects without
saving anything, or `strptime` raises on a malformed date. -/
inductive AddVaccineResult where
  | savedRedirect (vname : String) (d : Date)
  | redirectOnly
  | parseError
deriving DecidableEq

/-- Embedding of the `add_vaccine` handler body: fields are read with `form.get`; when
either `vaccine_name` or `date_given` is missing or empty the handler silently skips
creation and redirects (no error of any kind). -/
def add_vaccine (form : FormData) : AddVaccineResult :=
  let vname := formGet form "vaccine_name"
  let d := formGet form "date_given"
  if truthy vname && truthy d then
    match parseISODate (d.getD "") with
    | none => AddVaccineResult.parseError
    | some dt => AddVaccineResult.savedRedirect (vname.getD "") dt
  else AddVaccineResult.redirectOnly

/-! Basic facts about month lengths and the day-successor function. -/

lemma daysInMonth_le (y m : Nat) : daysInMonth y m ≤ 31 := by
  unfold daysInMonth
  split_ifs <;> omega

lemma daysInMonth_ge (y m : Nat) : 28 ≤ daysInMonth y m := by
  unfold daysInMonth
  split_ifs <;> omega

lemma nextDay_valid (d : Date) (h : d.Valid) : (nextDay d).Valid := by
  obtain ⟨h1, h2, h3, h4, h5⟩ := h
  have hg2 := daysInMonth_ge d.year (d.month + 1)
  have hg3 := daysInMonth_ge (d.year + 1) 1
  unfold nextDay
  split_ifs with ha hb
  · exact ⟨h1, h2, h3, by dsimp only; omega, by dsimp only; omega⟩
  · exact ⟨h1, by dsimp only; omega, by dsimp only; omega, by dsimp only; omega,
      by dsimp only; omega⟩
  · exact ⟨by dsimp only; omega, by dsimp only; omega, by dsimp only; omega,
      by dsimp only; omega, by dsimp only; omega⟩

lemma dateKey_lt_nextDay (d : Date) (h : d.Valid) : dateKey d < dateKey (nextDay d) := by
  obtain ⟨h1, h2, h3, h4, h5⟩ := h
  have h6 := daysInMonth_le d.year d.month
  unfold nextDay
  split_ifs with ha hb <;> unfold dateKey <;> simp <;> omega

lemma dateKey_le_addDays (d : Date) (h : d.Valid) (n : Nat) :
    dateKey d ≤ dateKey (addDays d n) := by
  induction n generalizing d with
  | zero => exact Nat.le_refl _
  | succ n ih =>
    calc dateKey d ≤ dateKey (nextDay d) := Nat.le_of_lt (dateKey_lt_nextDay d h)
    _ ≤ dateKey (addDays (nextDay d) n) := ih (nextDay d) (nextDay_valid d h)

/-! Facts about `pickLater` and `latest_for_type`: the fold picks a member of the list
whose administration date is maximal, ties going to the earliest element, which is what
Python's `max(recs, key=...)` returns. -/

lemma pickLater_eq_or (r a : VaccineRecord) : pickLater r a = r ∨ pickLater r a = a := by
  unfold pickLater
  split
  · right; rfl
  · left; rfl

lemma pickLater_ge_left (r a : VaccineRecord) :
    dateKey r.date_given ≤ dateKey (pickLater r a).date_given := by
  unfold pickLater
  split <;> omega

lemma pickLater_ge_right (r a : VaccineRecord) :
    dateKey a.date_given ≤ dateKey (pickLater r a).date_given := by
  unfold pickLater
  split <;> omega

lemma foldl_pickLater_mem (r : VaccineRecord) (rs : List VaccineRecord) :
    rs.foldl pickLater r ∈ r :: rs := by
  induction rs generalizing r with
  | nil => simp
  | cons a rs ih =>
    rw [List.foldl_cons]
    rcases List.mem_cons.mp (ih (pickLater r a)) with h1 | h1
    · rw [h1]
      rcases pickLater_eq_or r a with h2 | h2 <;> rw [h2] <;> simp
    · exact List.mem_cons_of_mem _ (List.mem_cons_of_mem _ h1)

lemma foldl_pickLater_ge (r : VaccineRecord) (rs : List VaccineRecord) :
    ∀ x ∈ r :: rs, dateKey x.date_given ≤ dateKey (rs.foldl pickLater r).date_given := by
  induction rs generalizing r with
  | nil =>
    intro x hx
    rw [List.mem_singleton] at hx
    rw [List.foldl_nil, hx]
  | cons a rs ih =>
    intro x hx
    rw [List.foldl_cons]
    rcases List.mem_cons.mp hx with h1 | h1
    · calc dateKey x.date_given = dateKey r.date_given := by rw [h1]
      _ ≤ dateKey (pickLater r a).date_given := pickLater_ge_left r a
      _ ≤ _ := ih (pickLater r a) (pickLater r a) (List.mem_cons_self _ _)
    · rcases List.mem_cons.mp h1 with h2 | h2
      · calc dateKey x.date_given = dateKey a.date_given := by rw [h2]
        _ ≤ dateKey (pickLater r a).date_given := pickLater_ge_right r a
        _ ≤ _ := ih (pickLater r a) (pickLater r a) (List.mem_cons_self _ _)
      · exact ih (pickLater r a) x (List.mem_cons_of_mem _ h2)

lemma latest_for_type_spec (l : List VaccineRecord) (v : String) (r : VaccineRecord)
    (h : latest_for_type l v = some r) :
    r ∈ l ∧ r.vaccine_name = v ∧
      ∀ x ∈ l, x.vaccine_name = v → dateKey x.date_given ≤ dateKey r.date_given := by
  unfold latest_for_type at h
  cases hf : l.filter (fun x => x.vaccine_name == v) with
  | nil => rw [hf] at h; exact absurd h (by simp)
  | cons a as =>
    rw [hf] at h
    have hr : r = as.foldl pickLater a := by
      have := h
      simp only [Option.some.injEq] at this
      exact this.symm
    have hmem : r ∈ a :: as := hr ▸ foldl_pickLater_mem a as
    have hmemf : r ∈ l.filter (fun x => x.vaccine_name == v) := by rw [hf]; exact hmem
    have hmf := List.mem_filter.mp hmemf
    refine ⟨hmf.1, by simpa using hmf.2, ?_⟩
    intro x hx hxv
    have hxf : x ∈ l.filter (fun x => x.vaccine_name == v) :=
      List.mem_filter.mpr ⟨hx, by simpa using hxv⟩
    rw [hf] at hxf
    rw [hr]
    exact foldl_pickLater_ge a as x hxf

lemma latest_for_type_none_iff (l : List VaccineRecord) (v : String) :
    latest_for_type l v = none ↔ l.filter (fun x => x.vaccine_name == v) = [] := by
  unfold latest_for_type
  cases hf : l.filter (fun x => x.vaccine_name == v) <;> simp

/-! Facts about `itemFor` and `alertItems`: what it means for an item to appear. -/

lemma itemFor_spec (s : Store) (c : Cat) (v : String) (it : AlertItem)
    (h : itemFor s c v = some it) :
    it.cat = c ∧ it.vaccine = v ∧
      ∃ r, latest_for_type (vaccinesOf s c) v = some r ∧
        r.next_due = some it.next_due ∧ it.last_date = r.date_given := by
  unfold itemFor at h
  cases h1 : latest_for_type (vaccinesOf s c) v with
  | none => rw [h1] at h; simp at h
  | some latest =>
    rw [h1] at h
    dsimp only at h
    cases h2 : latest.next_due with
    | none => rw [h2] at h; simp at h
    | some nd =>
      rw [h2] at h
      dsimp only at h
      simp only [Option.some.injEq] at h
      rw [← h]
      exact ⟨rfl, rfl, latest, rfl, h2, rfl⟩

lemma itemFor_build (s : Store) (c : Cat) (v : String) (r : VaccineRecord) (nd : Date)
    (h1 : latest_for_type (vaccinesOf s c) v = some r) (h2 : r.next_due = some nd) :
    itemFor s c v = some ⟨c, v, r.date_given, nd⟩ := by
  unfold itemFor
  rw [h1]
  dsimp only
  rw [h2]

lemma vaccine_mem_existing (l : List VaccineRecord) (v : String) (r : VaccineRecord)
    (h : latest_for_type l v = some r) : v ∈ existing_types l := by
  obtain ⟨hm, hv, _⟩ := latest_for_type_spec l v r h
  unfold existing_types
  rw [List.mem_dedup]
  exact List.mem_map.mpr ⟨r, hm, hv⟩

lemma mem_alertItems (s : Store) (it : AlertItem) :
    it ∈ alertItems s ↔ ∃ c ∈ s.cats, itemFor s c it.vaccine = some it := by
  unfold alertItems
  rw [List.mem_flatMap]
  constructor
  · rintro ⟨c, hc, hmem⟩
    rw [List.mem_filterMap] at hmem
    obtain ⟨v, _, hitem⟩ := hmem
    have hv := (itemFor_spec s c v it hitem).2.1
    exact ⟨c, hc, hv ▸ hitem⟩
  · rintro ⟨c, hc, hitem⟩
    obtain ⟨-, -, r, hr, -, -⟩ := itemFor_spec s c it.vaccine it hitem
    exact ⟨c, hc, List.mem_filterMap.mpr ⟨it.vaccine, vaccine_mem_existing _ _ r hr, hitem⟩⟩

lemma alertMem_filter_iff (s : Store) (p : AlertItem → Bool) (c : Cat) (v : String) :
    alertMem ((alertItems s).filter p) c v ↔
      c ∈ s.cats ∧ ∃ it, itemFor s c v = some it ∧ p it = true := by
  constructor
  · rintro ⟨it, hmem, hcat, hvac⟩
    rw [List.mem_filter] at hmem
    obtain ⟨hmem, hp⟩ := hmem
    obtain ⟨c2, hc2, hitem⟩ := (mem_alertItems s it).mp hmem
    have hcat2 := (itemFor_spec s c2 it.vaccine it hitem).1
    rw [hcat] at hcat2
    rw [← hcat2] at hc2 hitem
    rw [hvac] at hitem
    exact ⟨hc2, it, hitem, hp⟩
  · rintro ⟨hc, it, hitem, hp⟩
    obtain ⟨hcat, hvac, -⟩ := itemFor_spec s c v it hitem
    refine ⟨it, List.mem_filter.mpr ⟨?_, hp⟩, hcat, hvac⟩
    exact (mem_alertItems s it).mpr ⟨c, hc, hvac ▸ hitem⟩

/-! Calendar-arithmetic lemmas: behaviour of month indices and month addition, used to
characterise the `relativedelta`-based age computation. -/

lemma monthIndex_le (a b : Date) (ha : a.Valid) (hb : b.Valid)
    (h : dateKey a ≤ dateKey b) : monthIndex a ≤ monthIndex b := by
  obtain ⟨ha1, ha2, ha3, ha4, ha5⟩ := ha
  obtain ⟨hb1, hb2, hb3, hb4, hb5⟩ := hb
  have ha6 : a.day ≤ 31 := le_trans ha5 (daysInMonth_le _ _)
  have hb6 : b.day ≤ 31 := le_trans hb5 (daysInMonth_le _ _)
  unfold monthIndex
  unfold dateKey at h
  omega

lemma monthIndex_inj (a b : Date) (ha : a.Valid) (hb : b.Valid)
    (h : monthIndex a = monthIndex b) : a.year = b.year ∧ a.month = b.month := by
  obtain ⟨ha1, ha2, ha3, ha4, ha5⟩ := ha
  obtain ⟨hb1, hb2, hb3, hb4, hb5⟩ := hb
  unfold monthIndex at h
  omega

lemma dateOfMonthIndex_spec (y m day : Nat) (h1 : 1 ≤ m) (h2 : m ≤ 12) :
    dateOfMonthIndex ((y : Int) * 12 + (m : Int) - 1) day =
      ⟨y, m, min day (daysInMonth y m)⟩ := by
  have hdiv : ((y : Int) * 12 + (m : Int) - 1) / 12 = (y : Int) := by omega
  have hmod : ((y : Int) * 12 + (m : Int) - 1) % 12 = (m : Int) - 1 := by omega
  have hy : ((y : Int)).toNat = y := Int.toNat_natCast y
  have hm : ((m : Int) - 1).toNat + 1 = m := by omega
  simp only [dateOfMonthIndex, hdiv, hmod, hy, hm]

lemma addMonths_to (b t : Date) (ht : t.Valid) :
    addMonths b (monthIndex t - monthIndex b) =
      ⟨t.year, t.month, min b.day (daysInMonth t.year t.month)⟩ := by
  unfold addMonths
  have h : monthIndex b + (monthIndex t - monthIndex b) = monthIndex t := by ring
  rw [h]
  unfold monthIndex
  exact dateOfMonthIndex_spec t.year t.month b.day ht.2.1 ht.2.2.1

lemma dateOfMonthIndex_pred_lt (t : Date) (ht : t.Valid) (day : Nat) :
    dateKey (dateOfMonthIndex (monthIndex t - 1) day) < dateKey t := by
  obtain ⟨ht1, ht2, ht3, ht4, ht5⟩ := ht
  by_cases hm : 2 ≤ t.month
  · have hidx : monthIndex t - 1 = ((t.year : Int) * 12 + ((t.month - 1 : Nat) : Int) - 1) := by
      unfold monthIndex
      omega
    rw [hidx, dateOfMonthIndex_spec t.year (t.month - 1) day (by omega) (by omega)]
    have hd : min day (daysInMonth t.year (t.month - 1)) ≤ 31 :=
      le_trans (min_le_right _ _) (daysInMonth_le _ _)
    unfold dateKey
    dsimp only
    omega
  · have hm1 : t.month = 1 := by omega
    have hidx : monthIndex t - 1 =
        (((t.year - 1 : Nat) : Int) * 12 + (((12 : Nat)) : Int) - 1) := by
      unfold monthIndex
      omega
    rw [hidx, dateOfMonthIndex_spec (t.year - 1) 12 day (by omega) (by omega)]
    have hd : min day (daysInMonth (t.year - 1) 12) ≤ 31 :=
      le_trans (min_le_right _ _) (daysInMonth_le _ _)
    unfold dateKey
    dsimp only
    omega

lemma dateOfMonthIndex_succ_gt (t : Date) (ht : t.Valid) (day : Nat) :
    dateKey t < dateKey (dateOfMonthIndex (monthIndex t + 1) day) := by
  obtain ⟨ht1, ht2, ht3, ht4, ht5⟩ := ht
  have ht6 : t.day ≤ 31 := le_trans ht5 (daysInMonth_le _ _)
  by_cases hm : t.month ≤ 11
  · have hidx : monthIndex t + 1 = ((t.year : Int) * 12 + ((t.month + 1 : Nat) : Int) - 1) := by
      unfold monthIndex
      omega
    rw [hidx, dateOfMonthIndex_spec t.year (t.month + 1) day (by omega) (by omega)]
    unfold dateKey
    dsimp only
    omega
  · have hm12 : t.month = 12 := by omega
    have hidx : monthIndex t + 1 =
        (((t.year + 1 : Nat) : Int) * 12 + (((1 : Nat)) : Int) - 1) := by
      unfold monthIndex
      omega
    rw [hidx, dateOfMonthIndex_spec (t.year + 1) 1 day (by omega) (by omega)]
    unfold dateKey
    dsimp only
    omega

lemma rdMonths_spec (b t : Date) (hb : b.Valid) (ht : t.Valid)
    (h : dateKey b ≤ dateKey t) :
    0 ≤ rdMonths t b ∧
    dateKey (addMonths b (rdMonths t b)) ≤ dateKey t ∧
    dateKey t < dateKey (addMonths b (rdMonths t b + 1)) := by
  have hmi := monthIndex_le b t hb ht h
  have hA := addMonths_to b t ht
  by_cases hlt : dateKey t < dateKey (addMonths b (monthIndex t - monthIndex b))
  · have hrd : rdMonths t b = monthIndex t - monthIndex b - 1 := by
      simp only [rdMonths, if_pos hlt]
    have hm0 : monthIndex t - monthIndex b ≠ 0 := by
      intro h0
      have heq : monthIndex b = monthIndex t := by omega
      obtain ⟨hy, hm⟩ := monthIndex_inj b t hb ht heq
      rw [hA] at hlt
      obtain ⟨hb1, hb2, hb3, hb4, hb5⟩ := hb
      obtain ⟨ht1, ht2, ht3, ht4, ht5⟩ := ht
      rw [← hy, ← hm] at hlt
      have hmin : min b.day (daysInMonth b.year b.month) = b.day := min_eq_left hb5
      unfold dateKey at hlt h
      dsimp only at hlt
      rw [hmin] at hlt
      omega
    refine ⟨by omega, ?_, ?_⟩
    · rw [hrd]
      have hidx : monthIndex b + (monthIndex t - monthIndex b - 1) = monthIndex t - 1 := by
        ring
      unfold addMonths
      rw [hidx]
      exact le_of_lt (dateOfMonthIndex_pred_lt t ht b.day)
    · rw [hrd]
      have hidx : monthIndex t - monthIndex b - 1 + 1 = monthIndex t - monthIndex b := by
        ring
      rw [hidx]
      exact hlt
  · have hrd : rdMonths t b = monthIndex t - monthIndex b := by
      simp only [rdMonths, if_neg hlt]
    refine ⟨by omega, by rw [hrd]; omega, ?_⟩
    rw [hrd]
    have hidx : monthIndex b + (monthIndex t - monthIndex b + 1) = monthIndex t + 1 := by
      ring
    unfold addMonths
    rw [hidx]
    exact dateOfMonthIndex_succ_gt t ht b.day

/-! Leap-year lemmas for the next-due computation. -/

lemma isLeap_mod_four (y : Nat) (h : isLeap y = true) : y % 4 = 0 := by
  unfold isLeap at h
  simp only [Bool.or_eq_true, Bool.and_eq_true, beq_iff_eq, bne_iff_ne] at h
  omega

lemma isLeap_succ_false (y : Nat) (h : isLeap y = true) : isLeap (y + 1) = false := by
  have h4 := isLeap_mod_four y h
  rw [Bool.eq_false_iff]
  intro hcontra
  have h5 := isLeap_mod_four (y + 1) hcontra
  omega

lemma daysInMonth_feb (y : Nat) : daysInMonth y 2 = if isLeap y then 29 else 28 := by
  unfold daysInMonth
  simp

lemma daysInMonth_not_feb (y y' m : Nat) (h : m ≠ 2) :
    daysInMonth y m = daysInMonth y' m := by
  unfold daysInMonth
  have h2 : (m == 2) = false := by simpa using h
  rw [h2]
  simp

/-- Characterisation of membership in the filtered roster produced by
`cat_missing_vaccine_q`: kept exactly when no sufficiently recent record of the
vaccine exists for the cat. -/
lemma mem_cat_missing_iff (s : Store) (today : Date) (cats : List Cat) (v : String)
    (c : Cat) (hc : c ∈ cats) :
    c ∈ cat_missing_vaccine_q s today cats v ↔
      ¬ ∃ r ∈ s.vaccine_records, r.cat_id = c.id ∧ r.vaccine_name = v ∧
        dateKey (subYears today 1) ≤ dateKey r.date_given := by
  unfold cat_missing_vaccine_q missing_sub_exists
  rw [List.mem_filter]
  simp only [hc, true_and, Bool.not_eq_true', List.any_eq_false, Bool.and_eq_true,
    beq_iff_eq, decide_eq_true_eq, not_and, not_exists]
  constructor
  · intro hall r hrm hid hname hdate
    exact hall r hrm ⟨hname, hdate⟩ hid
  · intro hall r hrm hcond hid
    exact hall r hrm hid hcond.1 hcond.2

/-! Claim theorems. -/

/-- C1: for every cat and vaccine name with at least one record, with nd the computed
next-due date and h the horizon, the alert evaluator puts the (cat, vaccine) item in
`overdue` exactly when nd < today, in `due_soon` exactly when today ≤ nd ≤ today + h
days, in neither when nd > today + h, and never in both. -/
theorem C1_alert_classification (s : Store) (today : Date) (h : Nat) (c : Cat) (v : String)
    (nd : Date) (ht : today.Valid) (hc : c ∈ s.cats)
    (hnd : (latest_for_type (vaccinesOf s c) v).bind VaccineRecord.next_due = some nd) :
    (alertMem (compute_vaccine_alerts s today h).overdue c v ↔ dateKey nd < dateKey today) ∧
    (alertMem (compute_vaccine_alerts s today h).due_soon c v ↔
      dateKey today ≤ dateKey nd ∧ dateKey nd ≤ dateKey (addDays today h)) ∧
    (¬ (alertMem (compute_vaccine_alerts s today h).overdue c v ∧
        alertMem (compute_vaccine_alerts s today h).due_soon c v)) ∧
    (dateKey (addDays today h) < dateKey nd →
      ¬ alertMem (compute_vaccine_alerts s today h).overdue c v ∧
      ¬ alertMem (compute_vaccine_alerts s today h).due_soon c v) := by
  rw [Option.bind_eq_some] at hnd
  obtain ⟨r, hr, hrn⟩ := hnd
  have hitem := itemFor_build s c v r nd hr hrn
  have hov : alertMem (compute_vaccine_alerts s today h).overdue c v ↔
      dateKey nd < dateKey today := by
    unfold compute_vaccine_alerts
    dsimp only
    rw [alertMem_filter_iff]
    constructor
    · rintro ⟨-, it, hit, hp⟩
      rw [hitem] at hit
      simp only [Option.some.injEq] at hit
      rw [← hit] at hp
      simpa using hp
    · intro hlt
      exact ⟨hc, _, hitem, by simpa using hlt⟩
  have hds : alertMem (compute_vaccine_alerts s today h).due_soon c v ↔
      (dateKey today ≤ dateKey nd ∧ dateKey nd ≤ dateKey (addDays today h)) := by
    unfold compute_vaccine_alerts
    dsimp only
    rw [alertMem_filter_iff]
    constructor
    · rintro ⟨-, it, hit, hp⟩
      rw [hitem] at hit
      simp only [Option.some.injEq] at hit
      rw [← hit] at hp
      simp only [decide_eq_true_eq] at hp
      exact ⟨hp.2.1, hp.2.2⟩
    · intro hle
      refine ⟨hc, _, hitem, ?_⟩
      simp only [decide_eq_true_eq]
      exact ⟨by omega, hle.1, hle.2⟩
  have hmono := dateKey_le_addDays today ht h
  refine ⟨hov, hds, ?_, ?_⟩
  · rintro ⟨h1, h2⟩
    rw [hov] at h1
    rw [hds] at h2
    omega
  · intro hgt
    constructor
    · rw [hov]; omega
    · rw [hds]; omega

/-- C3: the alert evaluator only ever reports a (cat, vaccine) pair for which the cat
has at least one recorded dose of that vaccine name; in particular a cat with no
vaccination records at all appears in neither list. -/
theorem C3_only_recorded_types (s : Store) (today : Date) (h : Nat) (c : Cat) (v : String) :
    ((alertMem (compute_vaccine_alerts s today h).overdue c v ∨
      alertMem (compute_vaccine_alerts s today h).due_soon c v) →
      ∃ r ∈ vaccinesOf s c, r.vaccine_name = v) ∧
    (vaccinesOf s c = [] →
      ¬ alertMem (compute_vaccine_alerts s today h).overdue c v ∧
      ¬ alertMem (compute_vaccine_alerts s today h).due_soon c v) := by
  have key : ∀ p : AlertItem → Bool, alertMem ((alertItems s).filter p) c v →
      ∃ r ∈ vaccinesOf s c, r.vaccine_name = v := by
    intro p hm
    rw [alertMem_filter_iff] at hm
    obtain ⟨-, it, hit, -⟩ := hm
    obtain ⟨-, -, r, hr, -, -⟩ := itemFor_spec s c v it hit
    obtain ⟨hmem, hname, -⟩ := latest_for_type_spec _ _ _ hr
    exact ⟨r, hmem, hname⟩
  constructor
  · intro hm
    rcases hm with hm | hm <;> exact key _ hm
  · intro hempty
    constructor <;> intro hm <;>
      obtain ⟨r, hrm, -⟩ := key _ hm <;> rw [hempty] at hrm <;> simp at hrm

/-- C5: every reported alert item is built from the record with the maximal
administration date among the cat's records of that vaccine name: its date is the
reported `last_date` and its next-due date is the classified one. -/
theorem C5_latest_record_selected (s : Store) (today : Date) (h : Nat) (c : Cat)
    (v : String) (it : AlertItem)
    (hmem : it ∈ (compute_vaccine_alerts s today h).overdue ∨
            it ∈ (compute_vaccine_alerts s today h).due_soon)
    (hcat : it.cat = c) (hvac : it.vaccine = v) :
    ∃ r ∈ vaccinesOf s c, r.vaccine_name = v ∧ it.last_date = r.date_given ∧
      r.next_due = some it.next_due ∧
      ∀ x ∈ vaccinesOf s c, x.vaccine_name = v →
        dateKey x.date_given ≤ dateKey r.date_given := by
  have hmem' : it ∈ alertItems s := by
    rcases hmem with hm | hm
    · exact (List.mem_filter.mp hm).1
    · exact (List.mem_filter.mp hm).1
  obtain ⟨c2, hc2, hit⟩ := (mem_alertItems s it).mp hmem'
  have hcat2 := (itemFor_spec s c2 it.vaccine it hit).1
  rw [hcat] at hcat2
  rw [← hcat2] at hit
  rw [hvac] at hit
  obtain ⟨-, -, r, hr, hrn, hld⟩ := itemFor_spec s c v it hit
  obtain ⟨hrm, hrname, hmax⟩ := latest_for_type_spec _ _ _ hr
  exact ⟨r, hrm, hrname, hld, hrn, hmax⟩

/-- C7: when the next-due computation of the selected record fails (returns no date),
the (cat, vaccine) pair is reported in neither alert list; the evaluator itself is a
total function, so no error propagates. -/
theorem C7_failed_next_due_excluded (s : Store) (today : Date) (h : Nat) (c : Cat)
    (v : String) (r : VaccineRecord) (hl : latest_for_type (vaccinesOf s c) v = some r)
    (hn : r.next_due = none) :
    ¬ alertMem (compute_vaccine_alerts s today h).overdue c v ∧
    ¬ alertMem (compute_vaccine_alerts s today h).due_soon c v := by
  have hnone : itemFor s c v = none := by
    unfold itemFor
    rw [hl]
    dsimp only
    rw [hn]
  constructor <;> intro hm
  all_goals
    unfold compute_vaccine_alerts at hm
    dsimp only at hm
    rw [alertMem_filter_iff] at hm
    obtain ⟨-, it, hit, -⟩ := hm
    rw [hnone] at hit
    simp at hit

/-- C2: the missing-vaccine filter keeps a cat if and only if no vaccination record of
that cat with that vaccine name has an administration date on or after today minus one
calendar year; in particular every cat with zero records of that name is kept. -/
theorem C2_missing_vaccine_filter (s : Store) (today : Date) (cats : List Cat)
    (v : String) (c : Cat) (hc : c ∈ cats) :
    (c ∈ cat_missing_vaccine_q s today cats v ↔
      ¬ ∃ r ∈ s.vaccine_records, r.cat_id = c.id ∧ r.vaccine_name = v ∧
        dateKey (subYears today 1) ≤ dateKey r.date_given) ∧
    ((∀ r ∈ s.vaccine_records, r.cat_id = c.id → r.vaccine_name ≠ v) →
      c ∈ cat_missing_vaccine_q s today cats v) := by
  have hiff := mem_cat_missing_iff s today cats v c hc
  refine ⟨hiff, ?_⟩
  intro hall
  rw [hiff]
  rintro ⟨r, hrm, hid, hname, -⟩
  exact hall r hrm hid hname

/-- C4: the next-due date of a record whose administration year stays in range is the
administration date plus exactly one calendar year: month and day are preserved except
that a Feb 29 administration date shifts to Feb 28 of the following year, as the
day-clamping of the date library dictates. -/
theorem C4_next_due_calendar_year (r : VaccineRecord) (hv : r.date_given.Valid)
    (hy : r.date_given.year + 1 ≤ 9999) :
    r.next_due = some (addYears r.date_given 1) ∧
    (r.date_given.month = 2 ∧ r.date_given.day = 29 →
      addYears r.date_given 1 = ⟨r.date_given.year + 1, 2, 28⟩) ∧
    (¬ (r.date_given.month = 2 ∧ r.date_given.day = 29) →
      addYears r.date_given 1 =
        ⟨r.date_given.year + 1, r.date_given.month, r.date_given.day⟩) := by
  obtain ⟨h1, h2, h3, h4, h5⟩ := hv
  refine ⟨?_, ?_, ?_⟩
  · unfold VaccineRecord.next_due
    rw [if_pos hy]
  · rintro ⟨hm, hd⟩
    have hleap : isLeap r.date_given.year = true := by
      rw [hm, daysInMonth_feb] at h5
      by_cases hl : isLeap r.date_given.year
      · exact hl
      · rw [if_neg (by simp [hl])] at h5
        omega
    have hnl := isLeap_succ_false _ hleap
    unfold addYears
    rw [hm, hd, daysInMonth_feb, hnl]
    simp
  · intro hne
    unfold addYears
    have hd31 : r.date_given.day ≤ daysInMonth (r.date_given.year + 1) r.date_given.month := by
      by_cases hm : r.date_given.month = 2
      · have hd28 : r.date_given.day ≤ 28 := by
          rw [hm, daysInMonth_feb] at h5
          by_cases hl : isLeap r.date_given.year
          · rw [if_pos (by simp [hl])] at h5
            have hne29 : r.date_given.day ≠ 29 := fun hcc => hne ⟨hm, hcc⟩
            omega
          · rw [if_neg (by simp [hl])] at h5
            omega
        have hge := daysInMonth_ge (r.date_given.year + 1) r.date_given.month
        omega
      · rw [← daysInMonth_not_feb r.date_given.year (r.date_given.year + 1)
          r.date_given.month hm]
        exact h5
    rw [min_eq_left hd31]

/-- C6: deleting a cat removes exactly that cat's row, its notes, its vaccine records,
and its rows of the appointment link table; appointments themselves, employees, the
employee link table and the vaccine-type catalog are untouched, and every row not
belonging to the deleted cat survives. -/
theorem C6_delete_cat_cascade (s : Store) (i : Nat) :
    (∀ n ∈ (delete_cat s i).notes, n.cat_id ≠ i) ∧
    (∀ n ∈ s.notes, n.cat_id ≠ i → n ∈ (delete_cat s i).notes) ∧
    (∀ r ∈ (delete_cat s i).vaccine_records, r.cat_id ≠ i) ∧
    (∀ r ∈ s.vaccine_records, r.cat_id ≠ i → r ∈ (delete_cat s i).vaccine_records) ∧
    (delete_cat s i).appointments = s.appointments ∧
    (delete_cat s i).employees = s.employees ∧
    (delete_cat s i).appointment_employees = s.appointment_employees ∧
    (delete_cat s i).vaccine_types = s.vaccine_types ∧
    (∀ c ∈ (delete_cat s i).cats, c.id ≠ i) ∧
    (∀ c ∈ s.cats, c.id ≠ i → c ∈ (delete_cat s i).cats) ∧
    (∀ l ∈ (delete_cat s i).appointment_cats, l.2 ≠ i) ∧
    (∀ l ∈ s.appointment_cats, l.2 ≠ i → l ∈ (delete_cat s i).appointment_cats) := by
  unfold delete_cat
  dsimp only
  refine ⟨?_, ?_, ?_, ?_, rfl, rfl, rfl, rfl, ?_, ?_, ?_, ?_⟩
  · intro n hn
    have h := (List.mem_filter.mp hn).2
    simpa using h
  · intro n hn hne
    exact List.mem_filter.mpr ⟨hn, by simpa using hne⟩
  · intro r hr
    have h := (List.mem_filter.mp hr).2
    simpa using h
  · intro r hr hne
    exact List.mem_filter.mpr ⟨hr, by simpa using hne⟩
  · intro c hcm
    have h := (List.mem_filter.mp hcm).2
    simpa using h
  · intro c hcm hne
    exact List.mem_filter.mpr ⟨hcm, by simpa using hne⟩
  · intro l hl
    have h := (List.mem_filter.mp hl).2
    simpa using h
  · intro l hl hne
    exact List.mem_filter.mpr ⟨hl, by simpa using hne⟩

/-- C9: for a cat with a birthdate on or before today, the age string renders, in the
"2 ans, 3 mois" pattern, exactly the calendar-aware decomposition of the elapsed time:
y years and m < 12 months such that birthdate + (12y + m) months ≤ today <
birthdate + (12y + m + 1) months. -/
theorem C9_age_str_calendar (c : Cat) (b today : Date) (hbd : c.birthdate = some b)
    (hb : b.Valid) (ht : today.Valid) (hle : dateKey b ≤ dateKey today) :
    ∃ y m : Int, 0 ≤ y ∧ 0 ≤ m ∧ m < 12 ∧
      dateKey (addMonths b (12 * y + m)) ≤ dateKey today ∧
      dateKey today < dateKey (addMonths b (12 * y + m + 1)) ∧
      c.age_str today = renderAge y m := by
  obtain ⟨hnn, hlo, hhi⟩ := rdMonths_spec b today hb ht hle
  refine ⟨rdMonths today b / 12, rdMonths today b % 12, by omega, by omega, by omega,
    ?_, ?_, ?_⟩
  · have h12 : 12 * (rdMonths today b / 12) + rdMonths today b % 12 = rdMonths today b := by
      omega
    rw [h12]
    exact hlo
  · have h12 : 12 * (rdMonths today b / 12) + rdMonths today b % 12 + 1 =
        rdMonths today b + 1 := by
      omega
    rw [h12]
    exact hhi
  · unfold Cat.age_str
    rw [hbd]
    dsimp only
    rfl

/-- C10: both the alert evaluator's per-type record selection and the missing-vaccine
filter compare vaccine names by exact, case-sensitive string equality: the selected
record's name equals the queried name, and a cat none of whose records carry exactly
the queried name is kept by the missing filter regardless of case-variant records. -/
theorem C10_exact_name_match (l : List VaccineRecord) (s : Store) (today : Date)
    (cats : List Cat) (v : String) (c : Cat) :
    (∀ r : VaccineRecord, latest_for_type l v = some r → r.vaccine_name = v) ∧
    (c ∈ cats → (∀ r ∈ s.vaccine_records, r.cat_id = c.id → r.vaccine_name ≠ v) →
      c ∈ cat_missing_vaccine_q s today cats v) := by
  constructor
  · intro r h
    exact (latest_for_type_spec l v r h).2.1
  · intro hc hall
    rw [mem_cat_missing_iff s today cats v c hc]
    rintro ⟨r, hrm, hid, hname, -⟩
    exact hall r hrm hid hname

/-- C8 (counterexample): a create-form submission with a missing required field does
not fail with a framework-level bad request: `new_cat` without a name ends in a
database integrity error, and `add_vaccine` without its fields silently redirects. -/
theorem C8_counterexample :
    new_cat [] 1 = NewCatResult.dbIntegrityError ∧
    new_cat [] 1 ≠ NewCatResult.badRequest ∧
    add_vaccine [] = AddVaccineResult.redirectOnly ∧
    add_vaccine [("vaccine_name", "Rage")] = AddVaccineResult.redirectOnly := by
  refine ⟨rfl, by decide, rfl, rfl⟩

/-- C8 (amended): the create handlers read fields with `form.get`, which returns no
value instead of raising a key-error, so a missing required field never yields a
framework-level bad request: `new_cat` with a missing name reaches the commit with a
NULL name and fails with an unhandled database integrity error (or an unhandled parse
error first, when a malformed birthdate is present), and `add_vaccine` with a missing
vaccine name or date silently skips creation and redirects successfully. -/
theorem C8_amended_no_bad_request (form : FormData) (nextId : Nat) :
    (formGet form "name" = none →
      new_cat form nextId = NewCatResult.dbIntegrityError ∨
      new_cat form nextId = NewCatResult.parseError) ∧
    new_cat form nextId ≠ NewCatResult.badRequest ∧
    ((truthy (formGet form "vaccine_name") = false ∨
      truthy (formGet form "date_given") = false) →
      add_vaccine form = AddVaccineResult.redirectOnly) := by
  refine ⟨?_, ?_, ?_⟩
  · intro hname
    unfold new_cat
    dsimp only
    rw [hname]
    cases h1 : orNone (formGet form "birthdate") with
    | none => left; rfl
    | some s =>
      dsimp only
      cases h2 : parseISODate s with
      | none => right; rfl
      | some b => left; rfl
  · unfold new_cat
    dsimp only
    cases h1 : orNone (formGet form "birthdate") with
    | none =>
      dsimp only
      cases h2 : formGet form "name" <;> simp
    | some s =>
      dsimp only
      cases h2 : parseISODate s with
      | none => simp
      | some b =>
        dsimp only
        cases h3 : formGet form "name" <;> simp
  · intro hor
    unfold add_vaccine
    dsimp only
    have hcond : (truthy (formGet form "vaccine_name") &&
        truthy (formGet form "date_given")) = false := by
      rcases hor with hfl | hfl <;> simp [hfl]
    rw [hcond]
    simp

/-! Concrete data for the witness theorems. -/

/-- Sample reference date. -/
def wToday : Date := ⟨2025, 10, 12⟩

/-- Sample cat owning a "Rage" record. -/
def wCatRage : Cat := ⟨1, "Miaou", none, "normal", none⟩

/-- Sample "Rage" record of cat 1, given 2024-01-15. -/
def wRecRage : VaccineRecord := ⟨1, 1, "Rage", ⟨2024, 1, 15⟩, none, none, none⟩

/-- Store with one cat and its single "Rage" record. -/
def wStoreRage : Store := ⟨[wCatRage], [], [], [], [wRecRage], [], [], []⟩

/-- Second sample cat, with a recent "Typhus" record. -/
def wCatTyphus : Cat := ⟨2, "Felix", none, "normal", none⟩

/-- Sample "Typhus" record of cat 2, given six months before `wToday`. -/
def wRecTyphus : VaccineRecord := ⟨3, 2, "Typhus", ⟨2025, 4, 12⟩, none, none, none⟩

/-- Store with a cat lacking Typhus records and a cat with a recent one. -/
def wStoreTyphus : Store := ⟨[wCatRage, wCatTyphus], [], [], [], [wRecTyphus], [], [], []⟩

/-- Sample cat with no vaccination records at all. -/
def wCatNone : Cat := ⟨3, "Plume", none, "normal", none⟩

/-- Store whose only cat has no records. -/
def wStoreNone : Store := ⟨[wCatNone], [], [], [], [], [], [], []⟩

/-- Sample record administered on a leap day. -/
def wRecLeap : VaccineRecord := ⟨4, 1, "Rage", ⟨2024, 2, 29⟩, none, none, none⟩

/-- Older second "Rage" record of cat 1. -/
def wRecRage2 : VaccineRecord := ⟨5, 1, "Rage", ⟨2023, 6, 1⟩, none, none, none⟩

/-- Store in which cat 1 has two "Rage" records with distinct dates. -/
def wStoreTwo : Store := ⟨[wCatRage], [], [], [], [wRecRage, wRecRage2], [], [], []⟩

/-- Alert item the evaluator reports for cat 1's "Rage" history in `wStoreTwo`. -/
def wItemRage : AlertItem := ⟨wCatRage, "Rage", ⟨2024, 1, 15⟩, ⟨2025, 1, 15⟩⟩

/-- Sample note owned by cat 1. -/
def wNote1 : Note := ⟨1, 1, "Ana", "premiere note", none⟩

/-- Sample note owned by cat 2. -/
def wNote2 : Note := ⟨2, 2, "Bob", "deuxieme note", none⟩

/-- Sample appointment in which both cats participate. -/
def wAppt : Appointment := ⟨1, some "clinique", ⟨2025, 11, 1⟩, none⟩

/-- Store exercising every table, used to witness the deletion cascade. -/
def wStoreDel : Store :=
  ⟨[wCatRage, wCatTyphus], [⟨1, "Emma", none⟩], [⟨1, "Rage"⟩], [wNote1, wNote2],
   [wRecRage, wRecTyphus], [wAppt], [(1, 1), (1, 2)], [(1, 1)]⟩

/-- Sample record whose next-due computation overflows the calendar. -/
def wRec9999 : VaccineRecord := ⟨6, 1, "Rage", ⟨9999, 5, 1⟩, none, none, none⟩

/-- Store containing only the overflowing record. -/
def wStore9999 : Store := ⟨[wCatRage], [], [], [], [wRec9999], [], [], []⟩

/-- Sample cat born 2023-07-01. -/
def wCatAged : Cat := ⟨7, "Vieux", some ⟨2023, 7, 1⟩, "normal", none⟩

/-- Sample lowercase-named record of cat 1. -/
def wRecLower : VaccineRecord := ⟨8, 1, "rage", ⟨2024, 1, 20⟩, none, none, none⟩

/-- Store in which cat 1 only has a lowercase "rage" record. -/
def wStoreLower : Store := ⟨[wCatRage], [], [], [], [wRecLower], [], [], []⟩

/-- Store in which cat 1 has both a "Rage" and a "rage" record. -/
def wStoreCase : Store := ⟨[wCatRage], [], [], [], [wRecLower, wRecRage], [], [], []⟩

/-! Witness theorems: each one instantiates its claim's theorem at concrete data. -/

/-- Witness for C1: one "Rage" dose given 2024-01-15 puts the cat in `overdue` on
2025-02-01 with horizon 30. -/
theorem C1_witness :
    alertMem (compute_vaccine_alerts wStoreRage ⟨2025, 2, 1⟩ 30).overdue wCatRage "Rage" :=
  ((C1_alert_classification wStoreRage ⟨2025, 2, 1⟩ 30 wCatRage "Rage" ⟨2025, 1, 15⟩
    (by decide) (by decide) (by decide)).1).mpr (by decide)

/-- Witness for C2: the Typhus missing-filter keeps the cat with zero Typhus records
and drops the cat with a Typhus dose six months old. -/
theorem C2_witness :
    wCatRage ∈ cat_missing_vaccine_q wStoreTyphus wToday [wCatRage, wCatTyphus] "Typhus" ∧
    wCatTyphus ∉ cat_missing_vaccine_q wStoreTyphus wToday [wCatRage, wCatTyphus] "Typhus" :=
  ⟨(C2_missing_vaccine_filter wStoreTyphus wToday [wCatRage, wCatTyphus] "Typhus" wCatRage
      (by decide)).2 (by decide),
   fun hmm => (C2_missing_vaccine_filter wStoreTyphus wToday [wCatRage, wCatTyphus] "Typhus"
      wCatTyphus (by decide)).1.mp hmm (by decide)⟩

/-- Witness for C3: a cat with no vaccination records is in neither alert list. -/
theorem C3_witness :
    ¬ alertMem (compute_vaccine_alerts wStoreNone wToday 30).overdue wCatNone "Rage" ∧
    ¬ alertMem (compute_vaccine_alerts wStoreNone wToday 30).due_soon wCatNone "Rage" :=
  (C3_only_recorded_types wStoreNone wToday 30 wCatNone "Rage").2 (by decide)

/-- Witness for C4: a Feb 29, 2024 dose is next due Feb 28, 2025. -/
theorem C4_witness :
    wRecLeap.next_due = some (addYears wRecLeap.date_given 1) ∧
    addYears wRecLeap.date_given 1 = ⟨2025, 2, 28⟩ :=
  ⟨(C4_next_due_calendar_year wRecLeap (by decide) (by decide)).1,
   (C4_next_due_calendar_year wRecLeap (by decide) (by decide)).2.1 (by decide)⟩

/-- Witness for C5: with two "Rage" records the reported item carries the dates of the
later record, which dominates both records. -/
theorem C5_witness :
    ∃ r ∈ vaccinesOf wStoreTwo wCatRage, r.vaccine_name = "Rage" ∧
      wItemRage.last_date = r.date_given ∧ r.next_due = some wItemRage.next_due ∧
      ∀ x ∈ vaccinesOf wStoreTwo wCatRage, x.vaccine_name = "Rage" →
        dateKey x.date_given ≤ dateKey r.date_given :=
  C5_latest_record_selected wStoreTwo ⟨2025, 2, 1⟩ 30 wCatRage "Rage" wItemRage
    (Or.inl (by decide)) (by decide) (by decide)

/-- Witness for C6: deleting cat 1 keeps the appointment list intact, keeps cat 2's
note, and leaves no note of cat 1. -/
theorem C6_witness :
    (delete_cat wStoreDel 1).appointments = wStoreDel.appointments ∧
    wNote2 ∈ (delete_cat wStoreDel 1).notes ∧
    ∀ n ∈ (delete_cat wStoreDel 1).notes, n.cat_id ≠ 1 :=
  ⟨(C6_delete_cat_cascade wStoreDel 1).2.2.2.2.1,
   (C6_delete_cat_cascade wStoreDel 1).2.1 wNote2 (by decide) (by decide),
   (C6_delete_cat_cascade wStoreDel 1).1⟩

/-- Witness for C7: a record given in year 9999 has no computable next-due date and is
reported in neither list. -/
theorem C7_witness :
    ¬ alertMem (compute_vaccine_alerts wStore9999 wToday 30).overdue wCatRage "Rage" ∧
    ¬ alertMem (compute_vaccine_alerts wStore9999 wToday 30).due_soon wCatRage "Rage" :=
  C7_failed_next_due_excluded wStore9999 wToday 30 wCatRage "Rage" wRec9999
    (by decide) (by decide)

/-- Witness for C8 (amended): the empty form yields the database error for `new_cat`,
and a form without a vaccine name makes `add_vaccine` redirect without saving. -/
theorem C8_amended_witness :
    (new_cat [] 1 = NewCatResult.dbIntegrityError ∨
     new_cat [] 1 = NewCatResult.parseError) ∧
    add_vaccine [("date_given", "2025-01-01")] = AddVaccineResult.redirectOnly :=
  ⟨(C8_amended_no_bad_request [] 1).1 rfl,
   (C8_amended_no_bad_request [("date_given", "2025-01-01")] 1).2.2 (Or.inl (by decide))⟩

/-- Witness for C9: a cat born 2023-07-01 is, on 2025-10-12, exactly 2 years and 3
calendar months old, rendered accordingly. -/
theorem C9_witness :
    ∃ y m : Int, 0 ≤ y ∧ 0 ≤ m ∧ m < 12 ∧
      dateKey (addMonths ⟨2023, 7, 1⟩ (12 * y + m)) ≤ dateKey wToday ∧
      dateKey wToday < dateKey (addMonths ⟨2023, 7, 1⟩ (12 * y + m + 1)) ∧
      wCatAged.age_str wToday = renderAge y m :=
  C9_age_str_calendar wCatAged ⟨2023, 7, 1⟩ wToday rfl (by decide) (by decide) (by decide)

/-- Witness for C10: a recent lowercase "rage" dose does not satisfy the missing-filter
query for "Rage", and in a store with both spellings the evaluator reports two distinct
overdue items, one per exact name. -/
theorem C10_witness :
    wCatRage ∈ cat_missing_vaccine_q wStoreLower ⟨2024, 6, 1⟩ [wCatRage] "Rage" ∧
    alertMem (compute_vaccine_alerts wStoreCase ⟨2025, 2, 1⟩ 30).overdue wCatRage "Rage" ∧
    alertMem (compute_vaccine_alerts wStoreCase ⟨2025, 2, 1⟩ 30).overdue wCatRage "rage" :=
  ⟨(C10_exact_name_match [] wStoreLower ⟨2024, 6, 1⟩ [wCatRage] "Rage" wCatRage).2
      (by decide) (by decide),
   by decide, by decide⟩

end CatRefuge
